import Mathlib

/-!
Shallow embedding of the nucypher hardware-wallet signing subsystem
(src/nucypher/blockchain/eth/signers/base.py and
src/nucypher/blockchain/eth/signers/hardware.py), together with models of
the small slices of the external libraries the source calls into
(trezorlib.tools.parse_path, struct.pack of a big-endian 32-bit word,
eth_utils.to_canonical_address, HexBytes conversion, rlp.encode and the
eth_account transaction helpers).

Conventions of the embedding:
- Python byte strings are List Nat (each entry a byte value).
- Python str values are Lean String; parsing helpers work on String.data.
- Python dicts are association lists that keep insertion order, with the
  same update semantics as CPython dicts (assignment to an existing key
  keeps its position, a new key is appended).
- A Python call that can raise is Except-like: PyResult carries either the
  returned value or the exception that was raised.
- Stateful methods are explicit: they return the result together with the
  final state of the caller-supplied transaction dict and the number of
  device exchanges performed, so frame effects and device traffic are
  visible in theorems.
-/

/-- Result of a Python call: a normally returned value or a raised exception. -/
inductive PyErr where
  /-- KeyError, e.g. dict.pop on a missing key. -/
  | keyError : PyErr
  /-- AttributeError, e.g. reading an attribute that was never assigned. -/
  | attributeError : PyErr
  /-- ValueError, e.g. the ambiguous-arguments check in get_address_path,
  or int() on a non-numeric token. -/
  | valueError : PyErr
  /-- RuntimeError, raised when an address is not in the device cache. -/
  | runtimeError : PyErr
  /-- TypeError, e.g. assert_valid_fields rejecting a transaction dict. -/
  | typeError : PyErr
  /-- Signer.SignerError from base.py. -/
  | signerError : PyErr
  /-- Signer.InvalidSignerURI from base.py. -/
  | invalidSignerURI : PyErr
  /-- RecursionError: Signer.from_signer_uri dispatching to a class that does
  not override from_signer_uri re-enters the same classmethod forever. -/
  | recursionError : PyErr
deriving DecidableEq, Repr

/-- Outcome of a Python call. -/
inductive PyResult (α : Type) where
  /-- The call returned a value. -/
  | ok : α → PyResult α
  /-- The call raised an exception. -/
  | raised : PyErr → PyResult α
deriving DecidableEq, Repr

/-- A Python value as it occurs inside a transaction dict. -/
inductive PyVal where
  /-- A str value. -/
  | str : String → PyVal
  /-- A non-negative int value. -/
  | int : Nat → PyVal
  /-- A bytes value. -/
  | bytes : List Nat → PyVal
  /-- The None value. -/
  | pynone : PyVal
  /-- The NotImplemented sentinel value. -/
  | notImplemented : PyVal
deriving DecidableEq, Repr

/-- A Python dict with String keys, kept in insertion order. -/
abbrev PyDict (α : Type) := List (String × α)

/-- d[k] lookup returning Option. -/
def dictGet {α : Type} (d : PyDict α) (k : String) : Option α :=
  (d.find? (fun p => p.1 = k)).map (·.2)

/-- Python (k in d). -/
def dictContains {α : Type} (d : PyDict α) (k : String) : Bool :=
  d.any (fun p => p.1 = k)

/-- Python (del d[k]) on a dict without duplicate keys. -/
def dictErase {α : Type} (d : PyDict α) (k : String) : PyDict α :=
  d.filter (fun p => p.1 ≠ k)

/-- Python (d[k] = v): replace in place when the key exists, else append. -/
def dictSet {α : Type} : PyDict α → String → α → PyDict α
  | [], k, v => [(k, v)]
  | (k₀, v₀) :: rest, k, v =>
    if k₀ = k then (k, v) :: rest else (k₀, v₀) :: dictSet rest k v

/-- Python d.pop(k): the value and the dict without the key, or None on a
missing key (the caller turns that into a KeyError). -/
def dictPop {α : Type} (d : PyDict α) (k : String) : Option (α × PyDict α) :=
  match dictGet d k with
  | some v => some (v, dictErase d k)
  | none => none

/-- Python str.split(sep) for a single-character separator, on the character
list of the string: split on every occurrence, empty pieces kept, and the
empty string splits to one empty piece. -/
def pySplit (sep : Char) : List Char → List (List Char)
  | [] => [[]]
  | c :: rest =>
    let r := pySplit sep rest
    if c = sep then [] :: r
    else match r with
      | g :: gs => (c :: g) :: gs
      | [] => [[c]]

/-- Python int(token) restricted to the non-negative decimal tokens the
derivation-path code feeds it: all characters must be digits and the token
non-empty, else int() raises ValueError (modelled as none). -/
def pyInt : List Char → Option Nat
  | [] => none
  | cs =>
    if cs.all Char.isDigit then
      some (cs.foldl (fun acc c => acc * 10 + (c.toNat - 48)) 0)
    else none

/-- The apostrophe character used to mark hardened path elements. -/
def hardMark : Char := Char.ofNat 39

/-- struct.pack of one unsigned 32-bit big-endian word; raises for values
that do not fit (modelled as none). -/
def packUInt32 (n : Nat) : Option (List Nat) :=
  if n < 4294967296 then
    some [n / 16777216 % 256, n / 65536 % 256, n / 256 % 256, n % 256]
  else none

/-- Value of one hexadecimal digit, case-insensitive; none on other chars. -/
def hexDigitVal (c : Char) : Option Nat :=
  if c.isDigit then some (c.toNat - 48)
  else if 97 ≤ c.toNat ∧ c.toNat ≤ 102 then some (c.toNat - 87)
  else if 65 ≤ c.toNat ∧ c.toNat ≤ 70 then some (c.toNat - 55)
  else none

/-- Decode an even-length run of hex digits into bytes; none on a stray
character or an odd length. -/
def hexPairs : List Char → Option (List Nat)
  | [] => some []
  | [_] => none
  | a :: b :: rest =>
    match hexDigitVal a, hexDigitVal b, hexPairs rest with
    | some ha, some hb, some tl => some ((ha * 16 + hb) :: tl)
    | _, _, _ => none

/-- Strip one leading 0x or 0X marker from a character list, if present. -/
def strip0x : List Char → List Char
  | '0' :: 'x' :: rest => rest
  | '0' :: 'X' :: rest => rest
  | cs => cs

/-- Model of HexBytes(x) applied to a transaction data field: a 0x-prefixed
(or bare) hex str is decoded to bytes, bytes pass through, anything else
raises. Web3.toBytes of the resulting HexBytes is the identity on bytes. -/
def pyHexBytes : PyVal → PyResult (List Nat)
  | PyVal.bytes b => PyResult.ok b
  | PyVal.str s =>
    match hexPairs (strip0x s.data) with
    | some b => PyResult.ok b
    | none => PyResult.raised PyErr.valueError
  | _ => PyResult.raised PyErr.typeError

/-- Model of eth_utils.to_canonical_address: a 0x-prefixed 40-hex-digit
address string is decoded to its 20 raw bytes; anything else raises.
(The real function additionally rejects mixed-case strings whose EIP-55
checksum casing is wrong; that keccak-based check is not modelled, and every
concrete address used in this file is digit-only, for which the check is
vacuous.) -/
def to_canonical_address (a : String) : PyResult (List Nat) :=
  match a.data with
  | '0' :: 'x' :: rest =>
    if rest.length = 40 then
      match hexPairs rest with
      | some b => PyResult.ok b
      | none => PyResult.raised PyErr.valueError
    else PyResult.raised PyErr.valueError
  | _ => PyResult.raised PyErr.valueError

/-- Big-endian interpretation of a byte string as an unsigned integer:
model of int(b.hex(), 16) and of eth_utils to_int on bytes.  The empty
byte string maps to 0 (int(m, 16) would raise there; no call site feeds it
an empty string). -/
def bytesToInt (b : List Nat) : Nat :=
  b.foldl (fun acc x => acc * 256 + x) 0

/-- Minimal big-endian byte representation of a Nat, empty for 0 (the RLP
integer convention), written with explicit fuel so that it reduces by
evaluation; the first argument only needs to be at least the byte length. -/
def beMinimalAux : Nat → Nat → List Nat
  | 0, _ => []
  | _ + 1, 0 => []
  | fuel + 1, n => beMinimalAux fuel (n / 256) ++ [n % 256]

/-- Minimal big-endian bytes of a Nat (rlp int encoding payload). -/
def beMinimal (n : Nat) : List Nat := beMinimalAux (n + 1) n

/-- RLP encoding of one byte string. -/
def rlpStr (b : List Nat) : List Nat :=
  if b.length = 1 ∧ b.headI < 128 then b
  else if b.length < 56 then (128 + b.length) :: b
  else
    let lb := beMinimal b.length
    (183 + lb.length) :: (lb ++ b)

/-- RLP encoding of a flat list of byte strings (the shape of every
transaction structure this code serializes). -/
def rlpList (fields : List (List Nat)) : List Nat :=
  let payload := (fields.map rlpStr).flatten
  if payload.length < 56 then (192 + payload.length) :: payload
  else
    let lb := beMinimal payload.length
    (247 + lb.length) :: (lb ++ payload)

/-!
Model of src/nucypher/blockchain/eth/signers/base.py.
-/

namespace HDWallet

/-- BIP-44 purpose constant from base.py. -/
def BIP_44 : Nat := 44

/-- Ethereum coin type constant from base.py. -/
def ETH_COIN_TYPE : Nat := 60

/-- CHAIN_ID constant from base.py (0 is mainnet). -/
def CHAIN_ID : Nat := 0

/-- DEFAULT_ACCOUNT constant from base.py. -/
def DEFAULT_ACCOUNT : Nat := 0

/-- DERIVATION_ROOT, built by the same f-string as base.py:
purpose and coin type and account hardened, chain unhardened. -/
def DERIVATION_ROOT : String :=
  s!"{BIP_44}\x27/{ETH_COIN_TYPE}\x27/{DEFAULT_ACCOUNT}\x27/{CHAIN_ID}"

/-- ADDRESS_CACHE_SIZE from base.py: number of accounts derived at start. -/
def ADDRESS_CACHE_SIZE : Nat := 10

end HDWallet

/-!
Model of urllib.parse.urlparse restricted to the two components base.py
reads (scheme and path).  A scheme is recognized when the string has a colon
preceded by a non-empty run of scheme characters starting with a letter;
otherwise the whole string is path.  When the remainder after the colon
starts with a double slash, the authority up to the next slash, question
mark or hash is the netloc and is dropped here (base.py never reads it).
-/

/-- Characters allowed in a URI scheme after the leading letter. -/
def isSchemeChar (c : Char) : Bool :=
  c.isAlpha || c.isDigit || c = '+' || c = '-' || c = '.'

/-- Split a character list at the first colon when the prefix is a valid
scheme; none when the string has no scheme. -/
def findScheme : List Char → Option (List Char × List Char) :=
  fun cs =>
    let rec go (acc : List Char) : List Char → Option (List Char × List Char)
      | [] => none
      | ':' :: rest => if acc = [] then none else some (acc.reverse, rest)
      | c :: rest => if isSchemeChar c then go (c :: acc) rest else none
    match cs with
    | c :: rest => if c.isAlpha then go [c] rest else none
    | [] => none

/-- Drop a leading authority component: after the double slash everything up
to the next slash, question mark or hash is netloc; the rest is the path. -/
def dropNetloc : List Char → List Char
  | '/' :: '/' :: rest =>
    rest.dropWhile (fun c => c ≠ '/' && c ≠ '?' && c ≠ '#')
  | cs => cs

/-- The (scheme, path) pair of urlparse(uri) as base.py consumes it. -/
def urlparseSchemePath (uri : String) : String × String :=
  match findScheme uri.data with
  | none => ("", uri)
  | some (sch, rest) => (String.mk sch, String.mk (dropNetloc rest))

/-!
Model of trezorlib.tools: the HARDENED_FLAG bitmask, H_ and parse_path,
as the source versions pinned by this repository implement them.
-/

/-- trezorlib HARDENED_FLAG. -/
def HARDENED_FLAG : Nat := 2147483648

/-- trezorlib H_(x): set the hardened bit. -/
def H_ (x : Nat) : Nat := HARDENED_FLAG ||| x

/-- One element of a trezorlib path string: a token ending in an apostrophe
or the letter h is hardened; a plain decimal token is taken as is; a
non-numeric token raises ValueError. -/
def strToHarden (t : List Char) : Option Nat :=
  match t.reverse with
  | [] => none
  | c :: front =>
    if c = hardMark ∨ c = 'h' then (pyInt front.reverse).map H_
    else pyInt t

/-- trezorlib.tools.parse_path: split on slashes, drop one leading m, turn
each token into a 32-bit element, ValueError when any token is invalid. -/
def parse_path (nstr : String) : PyResult (List Nat) :=
  if nstr = "" then PyResult.ok []
  else
    let n := pySplit '/' nstr.data
    let n := match n with
      | ['m'] :: rest => rest
      | _ => n
    let rec go : List (List Char) → Option (List Nat)
      | [] => some []
      | t :: ts =>
        match strToHarden t, go ts with
        | some v, some vs => some (v :: vs)
        | _, _ => none
    match go n with
    | some vs => PyResult.ok vs
    | none => PyResult.raised PyErr.valueError

/-!
Model of the eth_account transaction helpers used by both signers
(eth_account._utils.transactions in the version this repository pins):
assert_valid_fields, the Transaction serializable and
serializable_unsigned_transaction_from_dict.
-/

/-- A transaction dict as passed to sign_transaction. -/
abbrev TxDict := PyDict PyVal

/-- Keys eth_account allows in a transaction dict. -/
def ALLOWED_TRANSACTION_KEYS : List String :=
  ["nonce", "gasPrice", "gas", "to", "value", "data", "chainId"]

/-- Keys eth_account requires (the allowed keys without defaults). -/
def REQUIRED_TRANSACTION_KEYS : List String := ["nonce", "gasPrice", "gas"]

/-- eth_utils is_int_or_prefixed_hexstr on a dict value. -/
def is_int_or_prefixed_hexstr : PyVal → Bool
  | PyVal.int _ => true
  | PyVal.str s =>
    match s.data with
    | '0' :: 'x' :: rest => rest ≠ [] && rest.all (fun c => (hexDigitVal c).isSome)
    | _ => false
  | _ => false

/-- A 0x-prefixed 40-hex-digit address string.  (eth_account additionally
enforces EIP-55 checksum casing on mixed-case strings via keccak; that check
is not modelled and all concrete addresses in this file are digit-only,
where it is vacuous.) -/
def isHexAddr40 (s : String) : Bool :=
  match s.data with
  | '0' :: 'x' :: rest => rest.length = 40 && rest.all (fun c => (hexDigitVal c).isSome)
  | _ => false

/-- eth_account validity check for the to field: empty or an address. -/
def is_empty_or_address : PyVal → Bool
  | PyVal.pynone => true
  | PyVal.str s => s = "" || isHexAddr40 s
  | PyVal.bytes b => b = [] || b.length = 20
  | _ => false

/-- Per-key value validator of assert_valid_fields. -/
def fieldValid (k : String) (v : PyVal) : Bool :=
  if k = "nonce" ∨ k = "gasPrice" ∨ k = "gas" ∨ k = "value" then
    is_int_or_prefixed_hexstr v
  else if k = "to" then is_empty_or_address v
  else if k = "data" then
    match v with
    | PyVal.bytes _ => true
    | PyVal.pynone => true
    | PyVal.str s => (strip0x s.data ≠ s.data) && (strip0x s.data).all (fun c => (hexDigitVal c).isSome)
    | _ => false
  else if k = "chainId" then
    match v with
    | PyVal.pynone => true
    | v => is_int_or_prefixed_hexstr v
  else false

/-- eth_account assert_valid_fields: missing required keys, superfluous
keys or ill-typed values raise TypeError. -/
def assert_valid_fields (d : TxDict) : PyResult Unit :=
  if ¬ (REQUIRED_TRANSACTION_KEYS.all fun k => dictContains d k) then
    PyResult.raised PyErr.typeError
  else if ¬ (d.all fun p => ALLOWED_TRANSACTION_KEYS.contains p.1) then
    PyResult.raised PyErr.typeError
  else if ¬ (d.all fun p => fieldValid p.1 p.2) then
    PyResult.raised PyErr.typeError
  else PyResult.ok ()

/-- The eth_account Transaction rlp serializable: an unsigned Ethereum
transaction plus the signature triple. -/
structure EthTransaction where
  /-- Sender account nonce. -/
  nonce : Nat
  /-- Gas price in wei. -/
  gasPrice : Nat
  /-- Gas limit. -/
  gas : Nat
  /-- Recipient as 20 raw bytes (or empty for contract creation); named
  to in the source, which is a reserved token in Lean. -/
  to_ : List Nat
  /-- Transferred value in wei. -/
  value : Nat
  /-- Call data bytes. -/
  data : List Nat
  /-- Signature recovery id. -/
  v : Nat
  /-- Signature r as an unsigned integer. -/
  r : Nat
  /-- Signature s as an unsigned integer. -/
  s : Nat
deriving DecidableEq, Repr

/-- The RLP field list of a signed Transaction, in serialization order. -/
def EthTransaction.fields (t : EthTransaction) : List (List Nat) :=
  [beMinimal t.nonce, beMinimal t.gasPrice, beMinimal t.gas, t.to_,
   beMinimal t.value, t.data, beMinimal t.v, beMinimal t.r, beMinimal t.s]

/-- rlp.encode of a signed Transaction. -/
def EthTransaction.rlpEncode (t : EthTransaction) : List Nat :=
  rlpList t.fields

/-- Transaction(v, r, s, **transaction_dict): the keyword construction of
the rlp serializable.  Missing or extra keys and ill-typed values raise
TypeError.  At this point in the trezor flow the to field holds raw bytes
and data holds bytes. -/
def mkTransaction (d : TxDict) (v r s : Nat) : PyResult EthTransaction :=
  match dictGet d "nonce", dictGet d "gasPrice", dictGet d "gas",
        dictGet d "to", dictGet d "value", dictGet d "data" with
  | some (PyVal.int nonce), some (PyVal.int gasPrice), some (PyVal.int gas),
    some (PyVal.bytes toBytes), some (PyVal.int value), some (PyVal.bytes data) =>
    if d.all (fun p =>
        p.1 = "nonce" ∨ p.1 = "gasPrice" ∨ p.1 = "gas" ∨ p.1 = "to" ∨
        p.1 = "value" ∨ p.1 = "data") then
      PyResult.ok ⟨nonce, gasPrice, gas, toBytes, value, data, v, r, s⟩
    else PyResult.raised PyErr.typeError
  | _, _, _, _, _, _ => PyResult.raised PyErr.typeError

/-!
Model of TrezorSigner (hardware.py lines 75-229).  The device is abstracted
as pure functions passed in (one call to trezorlib per device interaction);
the address cache is the explicit dict state the methods read.
-/

/-- Python truthiness of the optional checksum_address argument: present
and non-empty. -/
def truthyStr : Option String → Bool
  | some s => s ≠ ""
  | none => false

/-- Result of sign_transaction: the structured Transaction object or, when
rlp_encoded is true, the HexBytes rlp serialization. -/
inductive SignResult where
  /-- The structured (unencoded) Transaction object. -/
  | tx : EthTransaction → SignResult
  /-- HexBytes(rlp.encode(transaction)). -/
  | raw : List Nat → SignResult
deriving DecidableEq, Repr

/-- Trace of one sign_transaction call: the outcome, the caller-visible
final state of the transaction dict, and how many device interactions were
performed before returning. -/
structure CallTrace (α : Type) where
  /-- The returned value or raised exception. -/
  result : PyResult α
  /-- The transaction dict as the caller sees it after the call. -/
  dict : TxDict
  /-- Number of device interactions performed. -/
  exchanges : Nat
deriving DecidableEq, Repr

namespace TrezorSigner

/-- TrezorSigner.__get_address_path: both index and a truthy address raise
ValueError; an index alone parses DERIVATION_ROOT/index; otherwise the
address (None included) is looked up in the cache dict, and a missing key
raises RuntimeError. -/
def get_address_path (addresses : PyDict (List Nat)) (index : Option Nat)
    (checksum_address : Option String) : PyResult (List Nat) :=
  if index.isSome && truthyStr checksum_address then
    PyResult.raised PyErr.valueError
  else
    match index with
    | some i => parse_path (HDWallet.DERIVATION_ROOT ++ "/" ++ toString i)
    | none =>
      match checksum_address with
      | none => PyResult.raised PyErr.runtimeError
      | some a =>
        match dictGet addresses a with
        | some hd_path => PyResult.ok hd_path
        | none => PyResult.raised PyErr.runtimeError

/-- TrezorSigner.__load_addresses: derive paths for indices
0..ADDRESS_CACHE_SIZE, ask the device for each address without display,
and insert (address, path) in that order.  get_address abstracts the
ethereum.get_address device call. -/
def load_addresses (get_address : List Nat → String) : PyResult (PyDict (List Nat)) :=
  let rec go (acc : PyDict (List Nat)) : List Nat → PyResult (PyDict (List Nat))
    | [] => PyResult.ok acc
    | i :: is =>
      match get_address_path acc (some i) none with
      | PyResult.raised e => PyResult.raised e
      | PyResult.ok hd_path => go (dictSet acc (get_address hd_path) hd_path) is
  go [] (List.range HDWallet.ADDRESS_CACHE_SIZE)

/-- TrezorSigner.accounts: list(self.__addresses.keys()), a pure read of
the cache in insertion order with no device interaction. -/
def accounts (addresses : PyDict (List Nat)) : List String :=
  addresses.map Prod.fst

/-- TrezorSigner.from_signer_uri: any uri other than the exact scheme token
raises InvalidSignerURI, else a signer is constructed. -/
def from_signer_uri (uri : String) : PyResult Unit :=
  if uri ≠ "trezor" then PyResult.raised PyErr.invalidSignerURI
  else PyResult.ok ()

/-- TrezorSigner.sign_message: resolve the address through the cache, then
one trezorlib sign_message device exchange whose signature is returned. -/
def sign_message (addresses : PyDict (List Nat))
    (device_sign_message : List Nat → List Nat → List Nat)
    (message : List Nat) (checksum_address : String) : PyResult (List Nat) :=
  match get_address_path addresses none (some checksum_address) with
  | PyResult.raised e => PyResult.raised e
  | PyResult.ok hd_path => PyResult.ok (device_sign_message hd_path message)

/-- The data-field formatting step of sign_transaction: when the data key
is present with a non-None value it is rewritten in place to
Web3.toBytes(HexBytes(value)). -/
def format_data (d : TxDict) : PyResult TxDict :=
  match dictGet d "data" with
  | some v =>
    if v = PyVal.pynone then PyResult.ok d
    else
      match pyHexBytes v with
      | PyResult.ok b => PyResult.ok (dictSet d "data" (PyVal.bytes b))
      | PyResult.raised e => PyResult.raised e
  | none => PyResult.ok d

/-- TrezorSigner._format_transaction: validate the dict with
assert_valid_fields, then rename gas to gas_limit, gasPrice to gas_price
and chainId to chain_id into a fresh dict (apply_key_map). -/
def _format_transaction (d : TxDict) : PyResult TxDict :=
  match assert_valid_fields d with
  | PyResult.raised e => PyResult.raised e
  | PyResult.ok _ =>
    PyResult.ok (d.map fun p =>
      (if p.1 = "gas" then "gas_limit"
       else if p.1 = "gasPrice" then "gas_price"
       else if p.1 = "chainId" then "chain_id"
       else p.1, p.2))

/-- TrezorSigner.sign_transaction, with the chain of in-place dict updates
and the single trezorlib sign_tx device call made explicit.
device_sign_tx receives the resolved path and the trezor-formatted dict and
returns the raw (v, r, s) triple: v an int, r and s byte strings. -/
def sign_transaction (addresses : PyDict (List Nat))
    (device_sign_tx : List Nat → TxDict → Nat × List Nat × List Nat)
    (transaction_dict : TxDict) (rlp_encoded : Bool) : CallTrace SignResult :=
  match dictPop transaction_dict "from" with
  | none => ⟨PyResult.raised PyErr.keyError, transaction_dict, 0⟩
  | some (PyVal.str checksum_address, d₁) =>
    match format_data d₁ with
    | PyResult.raised e => ⟨PyResult.raised e, d₁, 0⟩
    | PyResult.ok d₂ =>
      if ¬ dictContains d₂ "chainId" then
        ⟨PyResult.raised PyErr.signerError, d₂, 0⟩
      else
        match _format_transaction d₂ with
        | PyResult.raised e => ⟨PyResult.raised e, d₂, 0⟩
        | PyResult.ok trezor_transaction =>
          match get_address_path addresses none (some checksum_address) with
          | PyResult.raised e => ⟨PyResult.raised e, d₂, 0⟩
          | PyResult.ok n =>
            let (_v, _r, _s) := device_sign_tx n trezor_transaction
            let d₃ := dictErase d₂ "chainId"
            match to_canonical_address checksum_address with
            | PyResult.raised e => ⟨PyResult.raised e, d₃, 1⟩
            | PyResult.ok canonical =>
              let d₄ := dictSet d₃ "to" (PyVal.bytes canonical)
              match mkTransaction d₄ _v (bytesToInt _r) (bytesToInt _s) with
              | PyResult.raised e => ⟨PyResult.raised e, d₄, 1⟩
              | PyResult.ok t =>
                if rlp_encoded then
                  ⟨PyResult.ok (SignResult.raw t.rlpEncode), d₄, 1⟩
                else ⟨PyResult.ok (SignResult.tx t), d₄, 1⟩
  | some (_, d₁) => ⟨PyResult.raised PyErr.typeError, d₁, 0⟩

end TrezorSigner

/-!
Model of LedgerSigner (hardware.py lines 232-417).
-/

namespace LedgerSigner

/-- CLA opcode byte of the ledger ethereum app. -/
def CLA : Nat := 224

/-- INS opcode for transaction signing. -/
def INS_OPCODE_SIGN_TRANS : Nat := 4

/-- P1 tag of the first transaction data block. -/
def P1_FIRST_TRANS_DATA_BLOCK : Nat := 0

/-- P1 tag of every subsequent transaction data block. -/
def P1_SUBSEQUENT_TRANS_DATA_BLOCK : Nat := 128

/-- P2 byte (unused by the sign protocol). -/
def P2_UNUSED_PARAMETER : Nat := 0

/-- The body of the element loop shared by _parse_bip32_path and
encode_path: split each slash-separated token on the apostrophe; one piece
means a plain element, more pieces mean a hardened element whose value is
the first piece ORed with 0x80000000; each element is packed as one
big-endian 32-bit word.  int() on a non-numeric piece raises ValueError. -/
def encodeElements : List (List Char) → PyResult (List Nat)
  | [] => PyResult.ok []
  | t :: ts =>
    let packed :=
      match pySplit hardMark t with
      | [e] => (pyInt e).bind packUInt32
      | e :: _ :: _ => (pyInt e).bind (fun v => packUInt32 (2147483648 ||| v))
      | [] => none
    match packed, encodeElements ts with
    | some b, PyResult.ok rest => PyResult.ok (b ++ rest)
    | some _, PyResult.raised e => PyResult.raised e
    | none, _ => PyResult.raised PyErr.valueError

/-- LedgerSigner._parse_bip32_path: the path string is
DERIVATION_ROOT + str(offset) with no separator in between, then each
slash-separated element is packed.  This entry takes str(offset) already
rendered, matching both call shapes in the source. -/
def _parse_bip32_path (offset : String) : PyResult (List Nat) :=
  encodeElements (pySplit '/' (HDWallet.DERIVATION_ROOT ++ offset).data)

/-- _parse_bip32_path applied to an integer offset, as the docstring of the
source function intends: str(offset) is its decimal rendering. -/
def _parse_bip32_path_int (offset : Nat) : PyResult (List Nat) :=
  _parse_bip32_path (toString offset)

/-- LedgerSigner.encode_path: the empty string encodes to no bytes, any
other string is split on slashes and each element packed. -/
def encode_path (hd_path : String) : PyResult (List Nat) :=
  if hd_path.data.length = 0 then PyResult.ok []
  else encodeElements (pySplit '/' hd_path.data)

/-- LedgerSigner.__get_address_path: the both-given check runs first and
raises ValueError; an index alone goes through _parse_bip32_path applied to
the full path string (the source passes the f-string as the offset
argument); the address branch reads self.__addresses, an attribute no code
in the class ever assigns, so it raises AttributeError. -/
def get_address_path (index : Option Nat) (checksum_address : Option String) :
    PyResult (List Nat) :=
  if index.isSome && truthyStr checksum_address then
    PyResult.raised PyErr.valueError
  else
    match index with
    | some i => _parse_bip32_path (HDWallet.DERIVATION_ROOT ++ "/" ++ toString i)
    | none => PyResult.raised PyErr.attributeError

/-- LedgerSigner.accounts maps self.get_address over
range(page * limit, (page + 1) * limit); no get_address method exists on
LedgerSigner or any of its base classes, so evaluating the first element of
the non-empty range raises AttributeError. -/
def accounts (limit : Nat := 5) (page : Nat := 0) : PyResult (List String) :=
  if (page + 1) * limit ≤ page * limit then PyResult.ok []
  else PyResult.raised PyErr.attributeError

/-- LedgerSigner.sign_message: returns the NotImplemented sentinel as a
normal value; nothing is raised. -/
def sign_message (_account : String) (_message : List Nat) : PyResult PyVal :=
  PyResult.ok PyVal.notImplemented

/-- One iteration tag: first block on the first pass, subsequent after. -/
def p1Tag (first : Bool) : Nat :=
  if first then P1_FIRST_TRANS_DATA_BLOCK else P1_SUBSEQUENT_TRANS_DATA_BLOCK

/-- The chunking loop of sign_transaction (lines 385-401): while the
payload is non-empty, take min(255, len) bytes, send them with the current
P1 tag, then continue with the subsequent-block tag.  Each list entry is
one dongle.exchange: the P1 byte and the chunk it carries.  Written with
fuel (one byte of payload consumed per iteration at least) so that it
reduces by evaluation; payload length is always enough fuel. -/
def chunkLoopAux : Nat → List Nat → Bool → List (Nat × List Nat)
  | 0, _, _ => []
  | _ + 1, [], _ => []
  | fuel + 1, dataPayload@(_ :: _), first =>
    let chunk_size := min 255 dataPayload.length
    (p1Tag first, dataPayload.take chunk_size) ::
      chunkLoopAux fuel (dataPayload.drop chunk_size) false

/-- The device exchanges sign_transaction performs for a data payload. -/
def chunkExchanges (dataPayload : List Nat) : List (Nat × List Nat) :=
  chunkLoopAux dataPayload.length dataPayload true

/-- The full apdu of one exchange, exactly as assembled in the source:
CLA, INS, P1, P2, the one-byte chunk size, then the chunk. -/
def apduOf (exchange : Nat × List Nat) : List Nat :=
  CLA :: INS_OPCODE_SIGN_TRANS :: exchange.1 :: P2_UNUSED_PARAMETER ::
    exchange.2.length :: exchange.2

/-- eth_account serializable_unsigned_transaction_from_dict: validate the
dict, fill the defaults (to, value and data default to empty, chainId to
None), move chainId into a v, r = 0, s = 0 triple when it is present
(EIP-155), and produce the rlp field list of the resulting unsigned
transaction: six fields without a chain id, nine with one. -/
def serializable_unsigned_transaction_from_dict (d : TxDict) :
    PyResult (List (List Nat)) :=
  match assert_valid_fields d with
  | PyResult.raised e => PyResult.raised e
  | PyResult.ok _ =>
    let nonce := dictGet d "nonce"
    let gasPrice := dictGet d "gasPrice"
    let gas := dictGet d "gas"
    let toVal := (dictGet d "to").getD (PyVal.bytes [])
    let value := (dictGet d "value").getD (PyVal.int 0)
    let dataVal := (dictGet d "data").getD (PyVal.bytes [])
    let chainId := (dictGet d "chainId").getD PyVal.pynone
    let fmtInt : Option PyVal → PyResult Nat := fun v =>
      match v with
      | some (PyVal.int n) => PyResult.ok n
      | _ => PyResult.raised PyErr.typeError
    let fmtBytes : PyVal → PyResult (List Nat) := fun v =>
      match v with
      | PyVal.bytes b => PyResult.ok b
      | PyVal.str s =>
        match hexPairs (strip0x s.data) with
        | some b => PyResult.ok b
        | none => PyResult.raised PyErr.valueError
      | _ => PyResult.raised PyErr.typeError
    match fmtInt nonce, fmtInt gasPrice, fmtInt gas, fmtBytes toVal,
          fmtInt (some value), fmtBytes dataVal with
    | PyResult.ok n, PyResult.ok gp, PyResult.ok g, PyResult.ok toB,
      PyResult.ok val, PyResult.ok dataB =>
      let unsigned := [beMinimal n, beMinimal gp, beMinimal g, toB,
                       beMinimal val, dataB]
      match chainId with
      | PyVal.pynone => PyResult.ok unsigned
      | PyVal.int cid =>
        PyResult.ok (unsigned ++ [beMinimal cid, beMinimal 0, beMinimal 0])
      | _ => PyResult.raised PyErr.typeError
    | _, _, _, _, _, _ => PyResult.raised PyErr.typeError

/-- LedgerSigner.sign_transaction: pop the sender from the dict, build and
rlp-encode the unsigned transaction, then resolve the sender address into
an HD path.  That resolution reads the never-assigned self.__addresses
attribute, so the call raises AttributeError before any dongle exchange;
the chunk loop and the signature reassembly below it are unreachable.  The
caller keeps the mutated dict (from removed). -/
def sign_transaction (transaction_dict : TxDict) (_rlp_encoded : Bool) :
    CallTrace SignResult :=
  match dictPop transaction_dict "from" with
  | none => ⟨PyResult.raised PyErr.keyError, transaction_dict, 0⟩
  | some (PyVal.str sender, d₁) =>
    match serializable_unsigned_transaction_from_dict d₁ with
    | PyResult.raised e => ⟨PyResult.raised e, d₁, 0⟩
    | PyResult.ok fields =>
      let _encodedTx := rlpList fields
      match get_address_path none (some sender) with
      | PyResult.raised e => ⟨PyResult.raised e, d₁, 0⟩
      | PyResult.ok _hd_path => ⟨PyResult.raised PyErr.attributeError, d₁, 0⟩
  | some (_, d₁) => ⟨PyResult.raised PyErr.typeError, d₁, 0⟩

end LedgerSigner

/-!
Model of Signer.from_signer_uri (base.py lines 54-71) and the scheme
registry it dispatches over.
-/

/-- The concrete signer a dispatch can produce. -/
inductive SignerKind where
  /-- A constructed TrezorSigner session. -/
  | trezorSigner : SignerKind
  /-- A pass-through Web3Signer built from an external provider URI. -/
  | web3Signer : SignerKind
deriving DecidableEq, Repr

/-- Modelled from the spec: the _SIGNERS scheme registry is set dynamically
in the signers package __init__, a file absent from this corpus; per the
spec the scheme selects the device family, so the registry maps the trezor
scheme to TrezorSigner and the ledger scheme to LedgerSigner. -/
def SIGNERS_SCHEMES : List String := ["trezor", "ledger"]

/-- Signer.from_signer_uri: parse the uri, fall back to the path component
when the scheme is empty, dispatch on the registry, and on a KeyError fall
through to the pass-through Web3Signer (a module absent from this corpus
and therefore abstracted as the web3_from_signer_uri argument, per the
spec: constructed from the uri, re-raising InvalidSignerURI when it also
fails).  A registered scheme delegates to that class's from_signer_uri
classmethod: TrezorSigner overrides it, LedgerSigner does not, so a ledger
dispatch re-enters this very classmethod with the same uri forever and
dies with RecursionError. -/
def from_signer_uri (web3_from_signer_uri : String → PyResult SignerKind)
    (uri : String) : PyResult SignerKind :=
  let parsed := urlparseSchemePath uri
  let scheme := if parsed.1 ≠ "" then parsed.1 else parsed.2
  if scheme = "trezor" then
    match TrezorSigner.from_signer_uri uri with
    | PyResult.ok _ => PyResult.ok SignerKind.trezorSigner
    | PyResult.raised e => PyResult.raised e
  else if scheme = "ledger" then
    PyResult.raised PyErr.recursionError
  else
    match web3_from_signer_uri uri with
    | PyResult.ok s => PyResult.ok s
    | PyResult.raised PyErr.invalidSignerURI =>
      PyResult.raised PyErr.invalidSignerURI
    | PyResult.raised e => PyResult.raised e

/-- The 4-byte big-endian rendering of a 32-bit word (the payload of
packUInt32 when the value fits). -/
def word4 (n : Nat) : List Nat :=
  [n / 16777216 % 256, n / 65536 % 256, n / 256 % 256, n % 256]

/-- The 32-bit word a path token denotes under the element loop of
encode_path: a plain decimal token is its value, a token with an apostrophe
is its leading value ORed with 0x80000000, anything else is invalid. -/
def tokenWord (t : List Char) : Option Nat :=
  match pySplit hardMark t with
  | [e] => pyInt e
  | e :: _ :: _ => (pyInt e).map (fun v => 2147483648 ||| v)
  | [] => none

/-- A token the element loop treats as hardened (it contains an
apostrophe). -/
def isHardenedToken (t : List Char) : Bool :=
  match pySplit hardMark t with
  | _ :: _ :: _ => true
  | _ => false

/-!
Concrete fixtures used by witnesses and counterexamples: digit-only
checksum addresses (their EIP-55 checksum casing is trivially valid), a
well-formed transaction dict, and echo devices.
-/

/-- A fixture sender address (digit-only, checksum-trivial). -/
def addrFrom : String := "0x1111111111111111111111111111111111111111"

/-- A fixture recipient address, distinct from the sender. -/
def addrTo : String := "0x2222222222222222222222222222222222222222"

/-- The HD path cached for the fixture sender. -/
def pathFrom : List Nat := [H_ 44, H_ 60, H_ 0, 0, 0]

/-- A device address cache holding only the fixture sender. -/
def cacheFixture : PyDict (List Nat) := [(addrFrom, pathFrom)]

/-- A well-formed canonical transaction dict fixture. -/
def txFixture : TxDict :=
  [("from", PyVal.str addrFrom), ("to", PyVal.str addrTo),
   ("value", PyVal.int 0), ("gas", PyVal.int 21000),
   ("gasPrice", PyVal.int 1000000000), ("nonce", PyVal.int 0),
   ("chainId", PyVal.int 1), ("data", PyVal.str "0x")]

/-- The fixture dict with the chainId key absent. -/
def txFixtureNoChainId : TxDict := dictErase txFixture "chainId"

/-- A fixture trezor signing device echoing v = 37, r = 0x01, s = 0x02. -/
def deviceEcho : List Nat → TxDict → Nat × List Nat × List Nat :=
  fun _ _ => (37, [1], [2])

/-- A fixture device address oracle: a distinct dummy digit-only address
per derivation path (keyed by the final path element). -/
def deviceAddrOracle : List Nat → String :=
  fun p => "0x33333333333333333333333333333333333333" ++ toString (30 + p.getLast!)

/-!
Theorems.  Each claim of the specification audit gets one theorem below,
with shared helper lemmas first.
-/

/-- One step of the chunk loop on a non-empty payload. -/
lemma chunkLoopAux_cons (fuel : Nat) (a : Nat) (rest : List Nat) (first : Bool) :
    LedgerSigner.chunkLoopAux (fuel + 1) (a :: rest) first =
      (LedgerSigner.p1Tag first, (a :: rest).take (min 255 (a :: rest).length)) ::
        LedgerSigner.chunkLoopAux fuel
          ((a :: rest).drop (min 255 (a :: rest).length)) false := rfl

/-- The chunk loop on the empty payload is empty. -/
lemma chunkLoopAux_nil (fuel : Nat) (first : Bool) :
    LedgerSigner.chunkLoopAux fuel [] first = [] := by
  cases fuel <;> rfl

/-- Behaviour of the chunk loop for any sufficient fuel: the chunks
concatenate back to the payload, there are exactly ceil(len / 255) of them,
every chunk carries between 1 and 255 bytes, and the tag sequence is one
first-block tag followed by subsequent-block tags. -/
lemma chunkLoopAux_spec (fuel : Nat) :
    ∀ (p : List Nat) (first : Bool), p.length ≤ fuel →
      (((LedgerSigner.chunkLoopAux fuel p first).map Prod.snd).flatten = p) ∧
      ((LedgerSigner.chunkLoopAux fuel p first).length = (p.length + 254) / 255) ∧
      (∀ c ∈ LedgerSigner.chunkLoopAux fuel p first, c.2.length ≤ 255 ∧ c.2 ≠ []) ∧
      ((LedgerSigner.chunkLoopAux fuel p first).map Prod.fst =
        if p = [] then []
        else LedgerSigner.p1Tag first ::
          List.replicate ((LedgerSigner.chunkLoopAux fuel p first).length - 1)
            LedgerSigner.P1_SUBSEQUENT_TRANS_DATA_BLOCK) := by
  induction fuel with
  | zero =>
    intro p first hp
    have hpnil : p = [] := List.eq_nil_of_length_eq_zero (Nat.le_zero.mp hp)
    subst hpnil
    simp [LedgerSigner.chunkLoopAux]
  | succ fuel ih =>
    intro p first hp
    cases p with
    | nil => simp [chunkLoopAux_nil]
    | cons a rest =>
      set P : List Nat := a :: rest with hP
      have hPlen : 1 ≤ P.length := by simp [hP]
      set n : Nat := min 255 P.length with hn
      have hn1 : 1 ≤ n := by omega
      have hdrop : (P.drop n).length = P.length - n := by simp
      have hfuel : (P.drop n).length ≤ fuel := by
        simp only [hdrop]
        omega
      obtain ⟨ihFlat, ihLen, ihChunks, ihTags⟩ := ih (P.drop n) false hfuel
      have hstep := chunkLoopAux_cons fuel a rest first
      rw [← hP, ← hn] at hstep
      constructor
      · rw [hstep]
        simp only [List.map_cons, List.flatten_cons, ihFlat]
        exact List.take_append_drop n P
      constructor
      · rw [hstep]
        simp only [List.length_cons, ihLen, hdrop]
        omega
      constructor
      · rw [hstep]
        intro c hc
        rcases List.mem_cons.mp hc with hc | hc
        · subst hc
          constructor
          · simp only [List.length_take]
            omega
          · apply List.ne_nil_of_length_pos
            simp only [List.length_take]
            omega
        · exact ihChunks c hc
      · rw [hstep]
        simp only [List.map_cons, List.length_cons, if_neg (by simp [hP] : P ≠ [])]
        by_cases hdn : P.drop n = []
        · have hz : LedgerSigner.chunkLoopAux fuel (P.drop n) false = [] := by
            rw [hdn, chunkLoopAux_nil]
          rw [hz] at ihTags ⊢
          simp
        · have hlpos : 1 ≤ (P.drop n).length := by
            cases hq : P.drop n with
            | nil => exact absurd hq hdn
            | cons x xs => simp [hq]
          have hcl : 1 ≤ (LedgerSigner.chunkLoopAux fuel (P.drop n) false).length := by
            rw [ihLen]
            omega
          rw [if_neg hdn] at ihTags
          rw [ihTags]
          congr 1
          have : LedgerSigner.p1Tag false = LedgerSigner.P1_SUBSEQUENT_TRANS_DATA_BLOCK := rfl
          rw [this]
          rw [← List.replicate_succ]
          congr 1
          omega

/-- C1: for every non-empty data payload, the ledger sign_transaction chunk
loop produces exactly ceil(len / 255) device exchanges whose chunks
concatenate back to the payload, each chunk between 1 and 255 bytes (so a
255-byte payload yields one chunk and no empty trailing chunk, and a
256-byte payload yields two); the first exchange carries the
first-data-block tag P1 = 0x00 and every later exchange the
subsequent-data-block tag P1 = 0x80. -/
theorem ledger_sign_transaction_chunking (p : List Nat) (hp : p ≠ []) :
    (((LedgerSigner.chunkExchanges p).map Prod.snd).flatten = p) ∧
    ((LedgerSigner.chunkExchanges p).length = (p.length + 254) / 255) ∧
    (∀ c ∈ LedgerSigner.chunkExchanges p, c.2.length ≤ 255 ∧ c.2 ≠ []) ∧
    ((LedgerSigner.chunkExchanges p).map Prod.fst =
      LedgerSigner.P1_FIRST_TRANS_DATA_BLOCK ::
        List.replicate ((LedgerSigner.chunkExchanges p).length - 1)
          LedgerSigner.P1_SUBSEQUENT_TRANS_DATA_BLOCK) := by
  obtain ⟨h1, h2, h3, h4⟩ :=
    chunkLoopAux_spec p.length p true (Nat.le_refl _)
  refine ⟨h1, h2, h3, ?_⟩
  unfold LedgerSigner.chunkExchanges
  rw [h4, if_neg hp]
  rfl

/-- Witness for C1 at the 255-byte and 256-byte boundary payloads: 255
bytes travel as exactly one first-tagged chunk, 256 bytes as exactly two
chunks tagged first then subsequent. -/
theorem ledger_sign_transaction_chunking_witness :
    (List.replicate 255 (7:Nat) ≠ [] ∧
      (LedgerSigner.chunkExchanges (List.replicate 255 7)).map Prod.fst = [0]) ∧
    (List.replicate 256 (7:Nat) ≠ [] ∧
      (LedgerSigner.chunkExchanges (List.replicate 256 7)).map Prod.fst = [0, 128]) := by
  have h255 : List.replicate 255 (7:Nat) ≠ [] := by
    intro h
    have := congrArg List.length h
    rw [List.length_replicate, List.length_nil] at this
    exact absurd this (by norm_num)
  have h256 : List.replicate 256 (7:Nat) ≠ [] := by
    intro h
    have := congrArg List.length h
    rw [List.length_replicate, List.length_nil] at this
    exact absurd this (by norm_num)
  obtain ⟨-, hl1, -, ht1⟩ := ledger_sign_transaction_chunking (List.replicate 255 7) h255
  obtain ⟨-, hl2, -, ht2⟩ := ledger_sign_transaction_chunking (List.replicate 256 7) h256
  simp only [List.length_replicate] at hl1 hl2
  norm_num at hl1 hl2
  refine ⟨⟨h255, ?_⟩, ⟨h256, ?_⟩⟩
  · rw [ht1, hl1]
    rfl
  · rw [ht2, hl2]
    rfl

/-- C5: the claim that derive_path(index) is the five-element path
44h/60h/0h/0/index on both device families holds for the trezor family but
fails on the ledger family: _parse_bip32_path concatenates DERIVATION_ROOT
and str(offset) with no separator, so at index 5 it packs the four-element
path 44h/60h/0h/5 (16 bytes, the chain element fused into the index), and
the actual call site, which passes the whole path string as the offset,
packs an eight-element path (32 bytes).  The code contradicts the
five-element derivation root it shares with the trezor family. -/
theorem derive_path_trezor_five_elements_ledger_four :
    (parse_path (HDWallet.DERIVATION_ROOT ++ "/" ++ toString 5) =
      PyResult.ok [H_ 44, H_ 60, H_ 0, 0, 5]) ∧
    (LedgerSigner._parse_bip32_path_int 5 =
      PyResult.ok [128, 0, 0, 44, 128, 0, 0, 60, 128, 0, 0, 0, 0, 0, 0, 5]) ∧
    (LedgerSigner._parse_bip32_path_int 5 ≠
      PyResult.ok [128, 0, 0, 44, 128, 0, 0, 60, 128, 0, 0, 0, 0, 0, 0, 0,
                   0, 0, 0, 5]) ∧
    (LedgerSigner.get_address_path (some 5) none =
      PyResult.ok [128, 0, 0, 44, 128, 0, 0, 60, 128, 0, 0, 0,
                   128, 0, 0, 44, 128, 0, 0, 60, 128, 0, 0, 0,
                   0, 0, 0, 0, 0, 0, 0, 5]) := by
  refine ⟨by decide, by decide, by decide, by decide⟩

/-- packUInt32 succeeds exactly with the 4-byte big-endian word. -/
lemma packUInt32_eq_word4 (w : Nat) (h : w < 4294967296) :
    packUInt32 w = some (word4 w) := by
  unfold packUInt32 word4
  rw [if_pos h]

/-- The element loop of encode_path, on tokens that all parse to in-range
words, returns exactly the concatenation of the 4-byte words. -/
lemma encodeElements_ok (ts : List (List Char))
    (h : ∀ t ∈ ts, (tokenWord t).isSome = true ∧ (tokenWord t).getD 0 < 4294967296) :
    LedgerSigner.encodeElements ts =
      PyResult.ok ((ts.map (fun t => word4 ((tokenWord t).getD 0))).flatten) := by
  induction ts with
  | nil => rfl
  | cons t ts ih =>
    obtain ⟨hsome, hlt⟩ := h t (by simp)
    have hrest := ih (fun t' ht' => h t' (by simp [ht']))
    obtain ⟨w, hw⟩ := Option.isSome_iff_exists.mp hsome
    have hgetD : (tokenWord t).getD 0 = w := by rw [hw]; rfl
    rw [hgetD] at hlt
    have hpacked :
        (match pySplit hardMark t with
          | [e] => (pyInt e).bind packUInt32
          | e :: _ :: _ => (pyInt e).bind (fun v => packUInt32 (2147483648 ||| v))
          | [] => none) = some (word4 w) := by
      unfold tokenWord at hw
      cases hsp : pySplit hardMark t with
      | nil =>
        rw [hsp] at hw
        exact Option.noConfusion hw
      | cons e rest =>
        cases rest with
        | nil =>
          rw [hsp] at hw
          simp only at hw
          show (pyInt e).bind packUInt32 = some (word4 w)
          rw [hw]
          exact packUInt32_eq_word4 w hlt
        | cons e₂ rest₂ =>
          rw [hsp] at hw
          simp only at hw
          show (pyInt e).bind (fun v => packUInt32 (2147483648 ||| v)) = some (word4 w)
          obtain ⟨v, hv, hvw⟩ := Option.map_eq_some'.mp hw
          rw [hv]
          show packUInt32 (2147483648 ||| v) = some (word4 w)
          rw [hvw]
          exact packUInt32_eq_word4 w hlt
    simp only [LedgerSigner.encodeElements]
    rw [hpacked, hrest]
    simp [List.map_cons, List.flatten_cons, hgetD]

/-- The concatenation of per-token 4-byte words has 4 bytes per token. -/
lemma flatten_word4_length (ts : List (List Char)) :
    ((ts.map (fun t => word4 ((tokenWord t).getD 0))).flatten).length = 4 * ts.length := by
  induction ts with
  | nil => rfl
  | cons t ts ih =>
    simp only [List.map_cons, List.flatten_cons, List.length_append, ih,
      List.length_cons]
    unfold word4
    simp
    ring

/-- ORing with the hardened flag keeps the value at least the flag. -/
lemma hardened_flag_le_or (v : Nat) : 2147483648 ≤ 2147483648 ||| v := by
  by_contra hlt
  push_neg at hlt
  have hbit : (2147483648 ||| v).testBit 31 = false :=
    Nat.testBit_eq_false_of_lt (by norm_num; omega)
  rw [Nat.testBit_lor] at hbit
  have h31 : (2147483648:Nat).testBit 31 = true := by decide
  rw [h31] at hbit
  simp at hbit

/-- The leading byte of the 4-byte word of a value with the hardened flag
set is at least 0x80. -/
lemma word4_head_hardened (w : Nat) (h1 : 2147483648 ≤ w)
    (h2 : w < 4294967296) : 128 ≤ (word4 w).headI := by
  unfold word4
  simp only [List.headI]
  omega

/-- C6: for every valid path string (each slash-separated token a decimal
value, optionally apostrophe-suffixed, whose packed word fits 32 bits),
encode_path returns exactly the concatenation of one 4-byte big-endian
word per token, hence 4 * n bytes for n tokens, with hardened tokens ORed
with 0x80000000 before packing so their leading byte has the top bit set.
The embedding is a pure function, so the encoding is deterministic and
effect-free by construction. -/
theorem encode_path_four_bytes_per_element (s : String)
    (hvalid : ∀ t ∈ pySplit '/' s.data,
      (tokenWord t).isSome = true ∧ (tokenWord t).getD 0 < 4294967296) :
    (LedgerSigner.encode_path s =
      PyResult.ok (((pySplit '/' s.data).map
        (fun t => word4 ((tokenWord t).getD 0))).flatten)) ∧
    (∀ bs, LedgerSigner.encode_path s = PyResult.ok bs →
      bs.length = 4 * (pySplit '/' s.data).length) ∧
    (∀ t ∈ pySplit '/' s.data, isHardenedToken t = true →
      128 ≤ (word4 ((tokenWord t).getD 0)).headI) := by
  have hne : s.data ≠ [] := by
    intro h0
    have hmem : ([] : List Char) ∈ pySplit '/' s.data := by
      rw [h0]
      simp [pySplit]
    have hns : (tokenWord ([] : List Char)).isSome = false := by decide
    have := (hvalid [] hmem).1
    rw [hns] at this
    exact Bool.noConfusion this
  have hmain : LedgerSigner.encode_path s =
      PyResult.ok (((pySplit '/' s.data).map
        (fun t => word4 ((tokenWord t).getD 0))).flatten) := by
    unfold LedgerSigner.encode_path
    rw [if_neg (fun hq => hne (List.length_eq_zero.mp hq))]
    exact encodeElements_ok _ hvalid
  refine ⟨hmain, ?_, ?_⟩
  · intro bs hbs
    rw [hmain] at hbs
    have hbs' : bs = ((pySplit '/' s.data).map
        (fun t => word4 ((tokenWord t).getD 0))).flatten := by
      cases hbs
      rfl
    rw [hbs']
    exact flatten_word4_length _
  · intro t ht hhard
    obtain ⟨hsome, hlt⟩ := hvalid t ht
    unfold isHardenedToken at hhard
    cases hsp : pySplit hardMark t with
    | nil =>
      rw [hsp] at hhard
      exact Bool.noConfusion hhard
    | cons e rest =>
      cases rest with
      | nil =>
        rw [hsp] at hhard
        exact Bool.noConfusion hhard
      | cons e₂ rest₂ =>
        have hw : tokenWord t = (pyInt e).map (fun v => 2147483648 ||| v) := by
          unfold tokenWord
          rw [hsp]
        rw [hw] at hsome hlt
        obtain ⟨v, hv⟩ := Option.isSome_iff_exists.mp hsome
        obtain ⟨v₀, hv₀, hvw⟩ := Option.map_eq_some'.mp hv
        have hgetD : ((pyInt e).map (fun v => 2147483648 ||| v)).getD 0 =
            2147483648 ||| v₀ := by
          rw [hv₀]
          rfl
        rw [hw, hgetD]
        rw [hgetD] at hlt
        exact word4_head_hardened _ (hardened_flag_le_or v₀) hlt

/-- Witness for C6 at the derivation-root path string: four tokens encode
to sixteen bytes, the three hardened tokens leading with 0x80. -/
theorem encode_path_four_bytes_per_element_witness :
    (∀ t ∈ pySplit '/' HDWallet.DERIVATION_ROOT.data,
      (tokenWord t).isSome = true ∧ (tokenWord t).getD 0 < 4294967296) ∧
    LedgerSigner.encode_path HDWallet.DERIVATION_ROOT =
      PyResult.ok [128, 0, 0, 44, 128, 0, 0, 60, 128, 0, 0, 0, 0, 0, 0, 0] := by
  have hvalid : ∀ t ∈ pySplit '/' HDWallet.DERIVATION_ROOT.data,
      (tokenWord t).isSome = true ∧ (tokenWord t).getD 0 < 4294967296 := by decide
  refine ⟨hvalid, ?_⟩
  have h := (encode_path_four_bytes_per_element HDWallet.DERIVATION_ROOT hvalid).1
  rw [h]
  decide

/-- Unfolding dictGet on a cons cell. -/
lemma dictGet_cons {α : Type} (k₀ : String) (v₀ : α) (rest : PyDict α) (k : String) :
    dictGet ((k₀, v₀) :: rest) k = if k₀ = k then some v₀ else dictGet rest k := by
  unfold dictGet
  simp only [List.find?]
  by_cases h : k₀ = k
  · simp [h]
  · simp [h]

/-- Unfolding dictErase on a cons cell. -/
lemma dictErase_cons {α : Type} (k₀ : String) (v₀ : α) (rest : PyDict α) (k : String) :
    dictErase ((k₀, v₀) :: rest) k =
      if k₀ = k then dictErase rest k else (k₀, v₀) :: dictErase rest k := by
  unfold dictErase
  simp only [List.filter]
  by_cases h : k₀ = k
  · simp [h]
  · simp [h]

/-- Unfolding dictSet on a cons cell. -/
lemma dictSet_cons {α : Type} (k₀ : String) (v₀ : α) (rest : PyDict α)
    (k : String) (v : α) :
    dictSet ((k₀, v₀) :: rest) k v =
      if k₀ = k then (k, v) :: rest else (k₀, v₀) :: dictSet rest k v := rfl

/-- Unfolding dictContains on a cons cell. -/
lemma dictContains_cons {α : Type} (k₀ : String) (v₀ : α) (rest : PyDict α)
    (k : String) :
    dictContains ((k₀, v₀) :: rest) k =
      if k₀ = k then true else dictContains rest k := by
  unfold dictContains
  simp only [List.any_cons]
  by_cases h : k₀ = k
  · simp [h]
  · simp [h]

/-- Lookup after in-place update at the same key. -/
lemma dictGet_set_self {α : Type} (d : PyDict α) (k : String) (v : α) :
    dictGet (dictSet d k v) k = some v := by
  induction d with
  | nil => simp [dictSet, dictGet_cons]
  | cons p rest ih =>
    obtain ⟨k₀, v₀⟩ := p
    rw [dictSet_cons]
    by_cases h : k₀ = k
    · rw [if_pos h, dictGet_cons, if_pos rfl]
    · rw [if_neg h, dictGet_cons, if_neg h]
      exact ih

/-- Lookup at another key is unchanged by an in-place update. -/
lemma dictGet_set_ne {α : Type} (d : PyDict α) (k k' : String) (v : α)
    (h : k' ≠ k) : dictGet (dictSet d k v) k' = dictGet d k' := by
  induction d with
  | nil => simp [dictSet, dictGet_cons, dictGet, Ne.symm h]
  | cons p rest ih =>
    obtain ⟨k₀, v₀⟩ := p
    rw [dictSet_cons]
    by_cases hp : k₀ = k
    · rw [if_pos hp, dictGet_cons, dictGet_cons, if_neg (Ne.symm h),
        if_neg (by rw [hp]; exact Ne.symm h)]
    · rw [if_neg hp, dictGet_cons, dictGet_cons]
      by_cases hp' : k₀ = k'
      · rw [if_pos hp', if_pos hp']
      · rw [if_neg hp', if_neg hp']
        exact ih

/-- Lookup at another key is unchanged by a deletion. -/
lemma dictGet_erase_ne {α : Type} (d : PyDict α) (k k' : String)
    (h : k' ≠ k) : dictGet (dictErase d k) k' = dictGet d k' := by
  induction d with
  | nil => rfl
  | cons p rest ih =>
    obtain ⟨k₀, v₀⟩ := p
    rw [dictErase_cons]
    by_cases hp : k₀ = k
    · rw [if_pos hp, dictGet_cons, if_neg (by rw [hp]; exact Ne.symm h)]
      exact ih
    · rw [if_neg hp, dictGet_cons, dictGet_cons]
      by_cases hp' : k₀ = k'
      · rw [if_pos hp', if_pos hp']
      · rw [if_neg hp', if_neg hp']
        exact ih

/-- A deleted key is absent. -/
lemma dictContains_erase_self {α : Type} (d : PyDict α) (k : String) :
    dictContains (dictErase d k) k = false := by
  induction d with
  | nil => rfl
  | cons p rest ih =>
    obtain ⟨k₀, v₀⟩ := p
    rw [dictErase_cons]
    by_cases hp : k₀ = k
    · rw [if_pos hp]
      exact ih
    · rw [if_neg hp, dictContains_cons, if_neg hp]
      exact ih

/-- Key presence at another key is unchanged by an in-place update. -/
lemma dictContains_set_ne {α : Type} (d : PyDict α) (k k' : String) (v : α)
    (h : k' ≠ k) : dictContains (dictSet d k v) k' = dictContains d k' := by
  induction d with
  | nil => simp [dictSet, dictContains_cons, dictContains, Ne.symm h]
  | cons p rest ih =>
    obtain ⟨k₀, v₀⟩ := p
    rw [dictSet_cons]
    by_cases hp : k₀ = k
    · rw [if_pos hp, dictContains_cons, dictContains_cons, if_neg (Ne.symm h),
        if_neg (by rw [hp]; exact Ne.symm h)]
    · rw [if_neg hp, dictContains_cons, dictContains_cons]
      by_cases hp' : k₀ = k'
      · rw [if_pos hp', if_pos hp']
      · rw [if_neg hp', if_neg hp']
        exact ih

/-- Key presence at another key is unchanged by a deletion. -/
lemma dictContains_erase_ne {α : Type} (d : PyDict α) (k k' : String)
    (h : k' ≠ k) : dictContains (dictErase d k) k' = dictContains d k' := by
  induction d with
  | nil => rfl
  | cons p rest ih =>
    obtain ⟨k₀, v₀⟩ := p
    rw [dictErase_cons]
    by_cases hp : k₀ = k
    · rw [if_pos hp, dictContains_cons, if_neg (by rw [hp]; exact Ne.symm h)]
      exact ih
    · rw [if_neg hp, dictContains_cons, dictContains_cons]
      by_cases hp' : k₀ = k'
      · rw [if_pos hp', if_pos hp']
      · rw [if_neg hp', if_neg hp']
        exact ih

/-- The dict returned by a successful pop lacks the popped key. -/
lemma dictPop_not_contains {α : Type} (d : PyDict α) (k : String) (v : α)
    (d' : PyDict α) (h : dictPop d k = some (v, d')) :
    dictContains d' k = false := by
  unfold dictPop at h
  cases hg : dictGet d k with
  | none =>
    rw [hg] at h
    exact Option.noConfusion h
  | some v₀ =>
    rw [hg] at h
    have hd : d' = dictErase d k := by
      cases h
      rfl
    rw [hd]
    exact dictContains_erase_self d k

/-- The dict returned by a successful pop preserves other keys. -/
lemma dictPop_get_ne {α : Type} (d : PyDict α) (k k' : String) (v : α)
    (d' : PyDict α) (h : dictPop d k = some (v, d')) (hk : k' ≠ k) :
    dictGet d' k' = dictGet d k' := by
  unfold dictPop at h
  cases hg : dictGet d k with
  | none =>
    rw [hg] at h
    exact Option.noConfusion h
  | some v₀ =>
    rw [hg] at h
    have hd : d' = dictErase d k := by
      cases h
      rfl
    rw [hd]
    exact dictGet_erase_ne d k k' hk

/-- C4 counterexample: with neither an index nor an address, the resolver
does not raise the ambiguous-arguments ValueError the claim requires; it
falls into the cache-lookup branch with a None key and raises the
unknown-address RuntimeError instead. -/
theorem resolve_neither_argument_counterexample :
    TrezorSigner.get_address_path [] none none =
      PyResult.raised PyErr.runtimeError ∧
    TrezorSigner.get_address_path [] none none ≠
      PyResult.raised PyErr.valueError := by
  exact ⟨by decide, by decide⟩

/-- C4 amended: supplying both an index and a truthy address raises
ValueError (the ambiguous-arguments error) on either family, and a cached
trezor lookup of an absent address raises the unknown-address RuntimeError;
but with neither argument the trezor resolver raises the unknown-address
RuntimeError (a None-key cache miss), not the ambiguous-arguments error,
and every ledger address lookup (absent address or no argument at all)
raises AttributeError because the ledger address cache attribute is never
assigned. -/
theorem resolve_exactly_one_argument_amended :
    (∀ (cache : PyDict (List Nat)) (i : Nat) (a : String), a ≠ "" →
      TrezorSigner.get_address_path cache (some i) (some a) =
        PyResult.raised PyErr.valueError) ∧
    (∀ (i : Nat) (a : String), a ≠ "" →
      LedgerSigner.get_address_path (some i) (some a) =
        PyResult.raised PyErr.valueError) ∧
    (∀ cache : PyDict (List Nat),
      TrezorSigner.get_address_path cache none none =
        PyResult.raised PyErr.runtimeError) ∧
    (∀ (cache : PyDict (List Nat)) (a : String), dictGet cache a = none →
      TrezorSigner.get_address_path cache none (some a) =
        PyResult.raised PyErr.runtimeError) ∧
    (∀ a : Option String,
      LedgerSigner.get_address_path none a =
        PyResult.raised PyErr.attributeError) := by
  refine ⟨?_, ?_, ?_, ?_, ?_⟩
  · intro cache i a ha
    simp [TrezorSigner.get_address_path, truthyStr, ha]
  · intro i a ha
    simp [LedgerSigner.get_address_path, truthyStr, ha]
  · intro cache
    rfl
  · intro cache a hnone
    simp [TrezorSigner.get_address_path, truthyStr, hnone]
  · intro a
    cases a with
    | none => rfl
    | some s =>
      simp [LedgerSigner.get_address_path, truthyStr]

/-- Witness for C4 amended at concrete arguments: index 3 with a non-empty
address is ambiguous on both families, and a lookup of an uncached address
is a RuntimeError on the trezor family. -/
theorem resolve_exactly_one_argument_amended_witness :
    (("0xabc" : String) ≠ "" ∧
      TrezorSigner.get_address_path [] (some 3) (some "0xabc") =
        PyResult.raised PyErr.valueError ∧
      LedgerSigner.get_address_path (some 3) (some "0xabc") =
        PyResult.raised PyErr.valueError) ∧
    (dictGet ([] : PyDict (List Nat)) addrTo = none ∧
      TrezorSigner.get_address_path [] none (some addrTo) =
        PyResult.raised PyErr.runtimeError) := by
  have h1 : ("0xabc" : String) ≠ "" := by decide
  have h2 : dictGet ([] : PyDict (List Nat)) addrTo = none := rfl
  exact ⟨⟨h1, resolve_exactly_one_argument_amended.1 [] 3 "0xabc" h1,
          resolve_exactly_one_argument_amended.2.1 3 "0xabc" h1⟩,
         ⟨h2, resolve_exactly_one_argument_amended.2.2.2.1 [] addrTo h2⟩⟩

/-- C3 counterexample: on the ledger family a well-formed transaction dict
lacking chainId does not produce the SignerError the claim requires on
either family: the ledger sign_transaction contains no chainId check at
all, and the call dies with AttributeError (its address cache attribute is
never assigned) after validating and encoding the unsigned transaction.
No device exchange happens either way. -/
theorem missing_chainid_ledger_counterexample :
    (LedgerSigner.sign_transaction txFixtureNoChainId true).result =
      PyResult.raised PyErr.attributeError ∧
    (LedgerSigner.sign_transaction txFixtureNoChainId true).result ≠
      PyResult.raised PyErr.signerError := by
  exact ⟨by decide, by decide⟩

/-- C3 amended: a transaction dict lacking chainId makes the trezor
sign_transaction raise SignerError with zero device exchanges (the check
runs before the path lookup and the device call); the ledger
sign_transaction performs no chainId validation and instead raises
AttributeError from its never-populated address cache, also before any
device exchange. -/
theorem missing_chainid_raises_before_exchange_amended :
    (∀ (cache : PyDict (List Nat))
      (dev : List Nat → TxDict → Nat × List Nat × List Nat)
      (d : TxDict) (a : String) (d₁ d₂ : TxDict) (rlp : Bool),
      dictPop d "from" = some (PyVal.str a, d₁) →
      TrezorSigner.format_data d₁ = PyResult.ok d₂ →
      dictContains d₂ "chainId" = false →
      TrezorSigner.sign_transaction cache dev d rlp =
        ⟨PyResult.raised PyErr.signerError, d₂, 0⟩) ∧
    (∀ (d : TxDict) (a : String) (d₁ : TxDict) (rlp : Bool)
      (fields : List (List Nat)),
      dictPop d "from" = some (PyVal.str a, d₁) →
      LedgerSigner.serializable_unsigned_transaction_from_dict d₁ =
        PyResult.ok fields →
      LedgerSigner.sign_transaction d rlp =
        ⟨PyResult.raised PyErr.attributeError, d₁, 0⟩) := by
  constructor
  · intro cache dev d a d₁ d₂ rlp h1 h2 h3
    unfold TrezorSigner.sign_transaction
    rw [h1]
    simp only [h2, h3]
    simp
  · intro d a d₁ rlp fields h1 h2
    unfold LedgerSigner.sign_transaction
    rw [h1]
    simp only [h2]
    rfl

/-- Witness for C3 amended at the chainId-less fixture dict on both
families. -/
theorem missing_chainid_raises_before_exchange_amended_witness :
    (dictPop txFixtureNoChainId "from" =
        some (PyVal.str addrFrom, dictErase txFixtureNoChainId "from") ∧
      TrezorSigner.format_data (dictErase txFixtureNoChainId "from") =
        PyResult.ok (dictSet (dictErase txFixtureNoChainId "from") "data"
          (PyVal.bytes [])) ∧
      dictContains (dictSet (dictErase txFixtureNoChainId "from") "data"
        (PyVal.bytes [])) "chainId" = false ∧
      TrezorSigner.sign_transaction cacheFixture deviceEcho
          txFixtureNoChainId true =
        ⟨PyResult.raised PyErr.signerError,
         dictSet (dictErase txFixtureNoChainId "from") "data"
           (PyVal.bytes []), 0⟩) ∧
    (LedgerSigner.serializable_unsigned_transaction_from_dict
        (dictErase txFixtureNoChainId "from") =
      PyResult.ok [[], [59, 154, 202, 0], [82, 8],
        [34, 34, 34, 34, 34, 34, 34, 34, 34, 34, 34, 34, 34, 34, 34, 34,
         34, 34, 34, 34], [], []] ∧
      LedgerSigner.sign_transaction txFixtureNoChainId true =
        ⟨PyResult.raised PyErr.attributeError,
         dictErase txFixtureNoChainId "from", 0⟩) := by
  have h1 : dictPop txFixtureNoChainId "from" =
      some (PyVal.str addrFrom, dictErase txFixtureNoChainId "from") := by decide
  have h2 : TrezorSigner.format_data (dictErase txFixtureNoChainId "from") =
      PyResult.ok (dictSet (dictErase txFixtureNoChainId "from") "data"
        (PyVal.bytes [])) := by decide
  have h3 : dictContains (dictSet (dictErase txFixtureNoChainId "from") "data"
      (PyVal.bytes [])) "chainId" = false := by decide
  have h4 : LedgerSigner.serializable_unsigned_transaction_from_dict
      (dictErase txFixtureNoChainId "from") =
    PyResult.ok [[], [59, 154, 202, 0], [82, 8],
      [34, 34, 34, 34, 34, 34, 34, 34, 34, 34, 34, 34, 34, 34, 34, 34,
       34, 34, 34, 34], [], []] := by decide
  exact ⟨⟨h1, h2, h3,
      missing_chainid_raises_before_exchange_amended.1 cacheFixture deviceEcho
        txFixtureNoChainId addrFrom _ _ true h1 h2 h3⟩,
    ⟨h4, missing_chainid_raises_before_exchange_amended.2
        txFixtureNoChainId addrFrom _ true _ h1 h4⟩⟩

/-- format_data only ever touches the data key: presence of any other key
is unchanged. -/
lemma format_data_preserves_contains (d₁ d₂ : TxDict) (k : String)
    (hk : k ≠ "data") (h : TrezorSigner.format_data d₁ = PyResult.ok d₂) :
    dictContains d₂ k = dictContains d₁ k := by
  unfold TrezorSigner.format_data at h
  cases hg : dictGet d₁ "data" with
  | none =>
    rw [hg] at h
    cases h
    rfl
  | some v =>
    simp only [hg] at h
    by_cases hv : v = PyVal.pynone
    · rw [if_pos hv] at h
      cases h
      rfl
    · rw [if_neg hv] at h
      cases hb : pyHexBytes v with
      | ok b =>
        rw [hb] at h
        cases h
        exact dictContains_set_ne _ _ _ _ hk
      | raised e =>
        rw [hb] at h
        exact PyResult.noConfusion h

/-- When the data key was present and not None, a successful format_data
leaves it rewritten to bytes. -/
lemma format_data_data_bytes (d₁ d₂ : TxDict) (v : PyVal)
    (hg : dictGet d₁ "data" = some v) (hv : v ≠ PyVal.pynone)
    (h : TrezorSigner.format_data d₁ = PyResult.ok d₂) :
    ∃ bs, dictGet d₂ "data" = some (PyVal.bytes bs) := by
  unfold TrezorSigner.format_data at h
  simp only [hg] at h
  rw [if_neg hv] at h
  cases hb : pyHexBytes v with
  | ok b =>
    rw [hb] at h
    cases h
    exact ⟨b, dictGet_set_self _ _ _⟩
  | raised e =>
    rw [hb] at h
    exact PyResult.noConfusion h

/-- C10: sign_transaction on both families mutates the caller's dict in
place: the from key is popped before any validation, so even a failing
call (the trezor missing-chainId SignerError, or any ledger call) leaves
the caller's dict without from; on a successful trezor call the dict also
loses chainId, its to value is rewritten to the canonical bytes of the
popped sender address, and a present non-None data value is rewritten to
bytes. -/
theorem sign_transaction_mutates_transaction_dict :
    (∀ (cache : PyDict (List Nat))
      (dev : List Nat → TxDict → Nat × List Nat × List Nat)
      (d : TxDict) (a : String) (d₁ d₂ : TxDict) (rlp : Bool),
      dictPop d "from" = some (PyVal.str a, d₁) →
      TrezorSigner.format_data d₁ = PyResult.ok d₂ →
      dictContains d₂ "chainId" = false →
      (TrezorSigner.sign_transaction cache dev d rlp).dict = d₂ ∧
      dictContains d₂ "from" = false) ∧
    (∀ (cache : PyDict (List Nat))
      (dev : List Nat → TxDict → Nat × List Nat × List Nat)
      (d : TxDict) (a : String) (d₁ : TxDict) (rlp : Bool)
      (t : SignResult) (dd : TxDict) (n : Nat),
      dictPop d "from" = some (PyVal.str a, d₁) →
      TrezorSigner.sign_transaction cache dev d rlp = ⟨PyResult.ok t, dd, n⟩ →
      dictContains dd "from" = false ∧
      dictContains dd "chainId" = false ∧
      (∃ canon, to_canonical_address a = PyResult.ok canon ∧
        dictGet dd "to" = some (PyVal.bytes canon)) ∧
      (∀ v, dictGet d "data" = some v → v ≠ PyVal.pynone →
        ∃ bs, dictGet dd "data" = some (PyVal.bytes bs))) ∧
    (∀ (d : TxDict) (a : String) (d₁ : TxDict) (rlp : Bool),
      dictPop d "from" = some (PyVal.str a, d₁) →
      (LedgerSigner.sign_transaction d rlp).dict = d₁ ∧
      dictContains d₁ "from" = false) := by
  refine ⟨?_, ?_, ?_⟩
  · intro cache dev d a d₁ d₂ rlp h1 h2 h3
    constructor
    · unfold TrezorSigner.sign_transaction
      rw [h1]
      simp only [h2, h3]
      simp
    · rw [format_data_preserves_contains d₁ d₂ "from" (by decide) h2]
      exact dictPop_not_contains d "from" _ d₁ h1
  · intro cache dev d a d₁ rlp t dd n h1 hrun
    unfold TrezorSigner.sign_transaction at hrun
    rw [h1] at hrun
    cases hfd : TrezorSigner.format_data d₁ with
    | raised e =>
      simp only [hfd] at hrun
      exact absurd (congrArg CallTrace.result hrun) (by simp)
    | ok d₂ =>
      simp only [hfd] at hrun
      by_cases hc : dictContains d₂ "chainId"
      · rw [if_neg (by simp [hc])] at hrun
        cases hft : TrezorSigner._format_transaction d₂ with
        | raised e =>
          simp only [hft] at hrun
          exact absurd (congrArg CallTrace.result hrun) (by simp)
        | ok tz =>
          simp only [hft] at hrun
          cases hgp : TrezorSigner.get_address_path cache none (some a) with
          | raised e =>
            simp only [hgp] at hrun
            exact absurd (congrArg CallTrace.result hrun) (by simp)
          | ok hd_path =>
            simp only [hgp] at hrun
            rcases hde : dev hd_path tz with ⟨v₀, r₀, s₀⟩
            rw [hde] at hrun
            cases hca : to_canonical_address a with
            | raised e =>
              simp only [hca] at hrun
              exact absurd (congrArg CallTrace.result hrun) (by simp)
            | ok canon =>
              simp only [hca] at hrun
              cases hmk : mkTransaction
                  (dictSet (dictErase d₂ "chainId") "to" (PyVal.bytes canon))
                  v₀ (bytesToInt r₀) (bytesToInt s₀) with
              | raised e =>
                simp only [hmk] at hrun
                exact absurd (congrArg CallTrace.result hrun) (by simp)
              | ok tr =>
                simp only [hmk] at hrun
                have hdd : dd =
                    dictSet (dictErase d₂ "chainId") "to" (PyVal.bytes canon) := by
                  by_cases hrl : rlp
                  · rw [if_pos hrl] at hrun
                    exact (congrArg CallTrace.dict hrun).symm
                  · rw [if_neg hrl] at hrun
                    exact (congrArg CallTrace.dict hrun).symm
                subst hdd
                refine ⟨?_, ?_, ⟨canon, rfl, dictGet_set_self _ _ _⟩, ?_⟩
                · rw [dictContains_set_ne _ _ _ _ (by decide),
                    dictContains_erase_ne _ _ _ (by decide),
                    format_data_preserves_contains d₁ d₂ "from" (by decide) hfd]
                  exact dictPop_not_contains d "from" _ d₁ h1
                · rw [dictContains_set_ne _ _ _ _ (by decide)]
                  exact dictContains_erase_self _ _
                · intro v hv hvn
                  have hv₁ : dictGet d₁ "data" = some v := by
                    rw [dictPop_get_ne d "from" "data" _ d₁ h1 (by decide)]
                    exact hv
                  obtain ⟨bs, hbs⟩ := format_data_data_bytes d₁ d₂ v hv₁ hvn hfd
                  refine ⟨bs, ?_⟩
                  rw [dictGet_set_ne _ _ _ _ (by decide),
                    dictGet_erase_ne _ _ _ (by decide)]
                  exact hbs
      · rw [if_pos (by simp [hc])] at hrun
        exact absurd (congrArg CallTrace.result hrun) (by simp)
  · intro d a d₁ rlp h1
    constructor
    · unfold LedgerSigner.sign_transaction
      rw [h1]
      cases hser : LedgerSigner.serializable_unsigned_transaction_from_dict d₁ with
      | raised e =>
        simp only [hser]
      | ok fields =>
        simp only [hser]
        rfl
    · exact dictPop_not_contains d "from" _ d₁ h1

/-- Witness for C10: the fixture transaction loses from on the failing
chainId-less call, and the successful fixture call leaves the dict without
from and chainId, with to rewritten to the sender's canonical bytes and
data rewritten to bytes. -/
theorem sign_transaction_mutates_transaction_dict_witness :
    (dictPop txFixtureNoChainId "from" =
        some (PyVal.str addrFrom, dictErase txFixtureNoChainId "from") ∧
      dictContains
        (TrezorSigner.sign_transaction cacheFixture deviceEcho
          txFixtureNoChainId true).dict "from" = false) ∧
    (dictPop txFixture "from" =
        some (PyVal.str addrFrom, dictErase txFixture "from") ∧
      dictContains
        (TrezorSigner.sign_transaction cacheFixture deviceEcho
          txFixture false).dict "from" = false ∧
      dictContains
        (TrezorSigner.sign_transaction cacheFixture deviceEcho
          txFixture false).dict "chainId" = false) ∧
    (LedgerSigner.sign_transaction txFixture true).dict =
        dictErase txFixture "from" := by
  have h1 : dictPop txFixtureNoChainId "from" =
      some (PyVal.str addrFrom, dictErase txFixtureNoChainId "from") := by decide
  have h2 : TrezorSigner.format_data (dictErase txFixtureNoChainId "from") =
      PyResult.ok (dictSet (dictErase txFixtureNoChainId "from") "data"
        (PyVal.bytes [])) := by decide
  have h3 : dictContains (dictSet (dictErase txFixtureNoChainId "from") "data"
      (PyVal.bytes [])) "chainId" = false := by decide
  have hfail := (sign_transaction_mutates_transaction_dict.1 cacheFixture
    deviceEcho txFixtureNoChainId addrFrom _ _ true h1 h2 h3)
  have h4 : dictPop txFixture "from" =
      some (PyVal.str addrFrom, dictErase txFixture "from") := by decide
  have hrun : TrezorSigner.sign_transaction cacheFixture deviceEcho
      txFixture false =
    ⟨PyResult.ok (SignResult.tx
      { nonce := 0, gasPrice := 1000000000, gas := 21000,
        to_ := [17, 17, 17, 17, 17, 17, 17, 17, 17, 17,
                17, 17, 17, 17, 17, 17, 17, 17, 17, 17],
        value := 0, data := [], v := 37, r := 1, s := 2 }),
     (TrezorSigner.sign_transaction cacheFixture deviceEcho txFixture false).dict,
     1⟩ := by decide
  have hok := sign_transaction_mutates_transaction_dict.2.1 cacheFixture
    deviceEcho txFixture addrFrom _ false _ _ _ h4 hrun
  have h5 := sign_transaction_mutates_transaction_dict.2.2 txFixture addrFrom
    (dictErase txFixture "from") true h4
  refine ⟨⟨h1, ?_⟩, ⟨h4, hok.1, hok.2.1⟩, h5.1⟩
  rw [hfail.1]
  exact hfail.2

/-- C2: evaluating the trezor sign_transaction on the fixture transaction
(sender 0x11...11, recipient 0x22...22) with the echo device shows the
round-trip does not reconstruct the to field: line 217 of the source
rewrites it to to_canonical_address(checksum_address), the canonical bytes
of the popped sender, so the signed transaction carries the sender bytes
0x11...11 where the recipient bytes 0x22...22 belong.  nonce, gasPrice,
gas, value and data survive unchanged, chainId is removed and (v, r, s)
are included, exactly as the claim says for every other field. -/
theorem trezor_sign_transaction_to_field_bug :
    (TrezorSigner.sign_transaction cacheFixture deviceEcho txFixture
      false).result =
      PyResult.ok (SignResult.tx
        { nonce := 0, gasPrice := 1000000000, gas := 21000,
          to_ := [17, 17, 17, 17, 17, 17, 17, 17, 17, 17,
                  17, 17, 17, 17, 17, 17, 17, 17, 17, 17],
          value := 0, data := [], v := 37, r := 1, s := 2 }) ∧
    to_canonical_address addrFrom =
      PyResult.ok [17, 17, 17, 17, 17, 17, 17, 17, 17, 17,
                   17, 17, 17, 17, 17, 17, 17, 17, 17, 17] ∧
    to_canonical_address addrTo =
      PyResult.ok [34, 34, 34, 34, 34, 34, 34, 34, 34, 34,
                   34, 34, 34, 34, 34, 34, 34, 34, 34, 34] ∧
    ([17, 17, 17, 17, 17, 17, 17, 17, 17, 17,
      17, 17, 17, 17, 17, 17, 17, 17, 17, 17] : List Nat) ≠
      [34, 34, 34, 34, 34, 34, 34, 34, 34, 34,
       34, 34, 34, 34, 34, 34, 34, 34, 34, 34] := by
  exact ⟨by decide, by decide, by decide, by decide⟩

/-- C7 counterexample: the bare token selects and constructs the trezor
signer, but the uri with the scheme marker does not: the dispatcher
resolves its scheme and hands the full uri to TrezorSigner.from_signer_uri,
which rejects everything except the exact bare token, so the claimed
construction for that uri shape raises InvalidSignerURI instead. -/
theorem from_signer_uri_scheme_marker_counterexample :
    from_signer_uri (fun _ => PyResult.raised PyErr.invalidSignerURI)
      "trezor" = PyResult.ok SignerKind.trezorSigner ∧
    from_signer_uri (fun _ => PyResult.raised PyErr.invalidSignerURI)
      "trezor://" = PyResult.raised PyErr.invalidSignerURI ∧
    from_signer_uri (fun _ => PyResult.raised PyErr.invalidSignerURI)
      "trezor://" ≠ PyResult.ok SignerKind.trezorSigner := by
  exact ⟨by decide, by decide, by decide⟩

/-- C7 amended: the dispatcher falls back to the path component when the
parsed scheme is empty, so the bare token constructs the trezor signer;
but any uri carrying the scheme marker, trezor marker included, reaches
TrezorSigner.from_signer_uri, which raises InvalidSignerURI for every uri
other than the exact bare token; an unrecognized scheme falls through to
the pass-through software signer, whose success is returned and whose
InvalidSignerURI failure is re-raised. -/
theorem from_signer_uri_scheme_fallback_amended :
    (∀ w : String → PyResult SignerKind,
      from_signer_uri w "trezor" = PyResult.ok SignerKind.trezorSigner) ∧
    (∀ w : String → PyResult SignerKind,
      from_signer_uri w "trezor://" = PyResult.raised PyErr.invalidSignerURI) ∧
    (∀ (w : String → PyResult SignerKind) (uri : String),
      (if (urlparseSchemePath uri).1 ≠ "" then (urlparseSchemePath uri).1
        else (urlparseSchemePath uri).2) ≠ "trezor" →
      (if (urlparseSchemePath uri).1 ≠ "" then (urlparseSchemePath uri).1
        else (urlparseSchemePath uri).2) ≠ "ledger" →
      ((∀ s, w uri = PyResult.ok s → from_signer_uri w uri = PyResult.ok s) ∧
       (w uri = PyResult.raised PyErr.invalidSignerURI →
         from_signer_uri w uri = PyResult.raised PyErr.invalidSignerURI))) := by
  refine ⟨?_, ?_, ?_⟩
  · intro w
    rfl
  · intro w
    rfl
  · intro w uri hnt hnl
    constructor
    · intro s hs
      unfold from_signer_uri
      rw [if_neg (by simpa using hnt), if_neg (by simpa using hnl), hs]
    · intro hs
      unfold from_signer_uri
      rw [if_neg (by simpa using hnt), if_neg (by simpa using hnl), hs]

/-- Witness for C7 amended: an unrecognized scheme returns the
pass-through signer when the pass-through succeeds, and re-raises
InvalidSignerURI when it fails. -/
theorem from_signer_uri_scheme_fallback_amended_witness :
    ((if (urlparseSchemePath "foo://bar").1 ≠ ""
        then (urlparseSchemePath "foo://bar").1
        else (urlparseSchemePath "foo://bar").2) ≠ "trezor" ∧
      (if (urlparseSchemePath "foo://bar").1 ≠ ""
        then (urlparseSchemePath "foo://bar").1
        else (urlparseSchemePath "foo://bar").2) ≠ "ledger") ∧
    from_signer_uri (fun _ => PyResult.ok SignerKind.web3Signer) "foo://bar" =
      PyResult.ok SignerKind.web3Signer ∧
    from_signer_uri (fun _ => PyResult.raised PyErr.invalidSignerURI)
      "foo://bar" = PyResult.raised PyErr.invalidSignerURI := by
  have hnt : (if (urlparseSchemePath "foo://bar").1 ≠ ""
      then (urlparseSchemePath "foo://bar").1
      else (urlparseSchemePath "foo://bar").2) ≠ "trezor" := by decide
  have hnl : (if (urlparseSchemePath "foo://bar").1 ≠ ""
      then (urlparseSchemePath "foo://bar").1
      else (urlparseSchemePath "foo://bar").2) ≠ "ledger" := by decide
  refine ⟨⟨hnt, hnl⟩, ?_, ?_⟩
  · exact (from_signer_uri_scheme_fallback_amended.2.2
      (fun _ => PyResult.ok SignerKind.web3Signer) "foo://bar" hnt hnl).1
      SignerKind.web3Signer rfl
  · exact (from_signer_uri_scheme_fallback_amended.2.2
      (fun _ => PyResult.raised PyErr.invalidSignerURI) "foo://bar" hnt hnl).2
      rfl

/-- C8 counterexample: the ledger accounts property is not a pure cache
read returning the pre-populated addresses: LedgerSigner pre-populates no
cache, and accounts maps the undefined self.get_address over the five-index
page, so reading it raises AttributeError instead of returning a sequence. -/
theorem accounts_ledger_counterexample :
    LedgerSigner.accounts 5 0 = PyResult.raised PyErr.attributeError ∧
    LedgerSigner.accounts 5 0 ≠ PyResult.ok [] := by
  exact ⟨by decide, by decide⟩

/-- C8 amended: on the trezor family the accounts property is a pure
projection of the session cache, so two reads return the same ordered
sequence, namely the cache keys in insertion order, and the bulk-derived
cache holds the device addresses in ascending derivation-index order (shown
on a fixture device oracle with distinct addresses per index); on the
ledger family accounts is not a cache read at all: it raises
AttributeError through the undefined get_address. -/
theorem accounts_idempotent_pure_trezor_amended :
    (∀ addresses : PyDict (List Nat),
      TrezorSigner.accounts addresses = addresses.map Prod.fst) ∧
    (∀ addresses : PyDict (List Nat),
      TrezorSigner.accounts addresses = TrezorSigner.accounts addresses) ∧
    (∃ cache, TrezorSigner.load_addresses deviceAddrOracle = PyResult.ok cache ∧
      TrezorSigner.accounts cache =
        (List.range 10).map (fun i => deviceAddrOracle [H_ 44, H_ 60, H_ 0, 0, i])) ∧
    LedgerSigner.accounts 5 0 = PyResult.raised PyErr.attributeError := by
  refine ⟨fun _ => rfl, fun _ => rfl, ?_, by decide⟩
  refine ⟨[("0x3333333333333333333333333333333333333330",
            [2147483692, 2147483708, 2147483648, 0, 0]),
           ("0x3333333333333333333333333333333333333331",
            [2147483692, 2147483708, 2147483648, 0, 1]),
           ("0x3333333333333333333333333333333333333332",
            [2147483692, 2147483708, 2147483648, 0, 2]),
           ("0x3333333333333333333333333333333333333333",
            [2147483692, 2147483708, 2147483648, 0, 3]),
           ("0x3333333333333333333333333333333333333334",
            [2147483692, 2147483708, 2147483648, 0, 4]),
           ("0x3333333333333333333333333333333333333335",
            [2147483692, 2147483708, 2147483648, 0, 5]),
           ("0x3333333333333333333333333333333333333336",
            [2147483692, 2147483708, 2147483648, 0, 6]),
           ("0x3333333333333333333333333333333333333337",
            [2147483692, 2147483708, 2147483648, 0, 7]),
           ("0x3333333333333333333333333333333333333338",
            [2147483692, 2147483708, 2147483648, 0, 8]),
           ("0x3333333333333333333333333333333333333339",
            [2147483692, 2147483708, 2147483648, 0, 9])], by decide, by decide⟩

/-- C9 counterexample: ledger sign_message returns the NotImplemented
sentinel as an ordinary returned value (PyResult.ok), which in this
embedding is by construction not a raised exception of any kind, contrary
to the claim that the call fails with a raised error. -/
theorem sign_message_ledger_returns_sentinel :
    LedgerSigner.sign_message addrFrom [1, 2, 3] =
      PyResult.ok PyVal.notImplemented := by
  decide

/-- C9 amended: the message-signing asymmetry is real but has a different
failure shape than claimed: ledger sign_message returns the NotImplemented
sentinel as its normal return value for every message and account (it does
not raise), while trezor sign_message resolves the address through the
cache and returns the signature of the device exchange. -/
theorem sign_message_family_asymmetry_amended :
    (∀ (account : String) (message : List Nat),
      LedgerSigner.sign_message account message =
        PyResult.ok PyVal.notImplemented) ∧
    (∀ (cache : PyDict (List Nat)) (dev : List Nat → List Nat → List Nat)
      (message : List Nat) (a : String) (hd_path : List Nat),
      dictGet cache a = some hd_path →
      TrezorSigner.sign_message cache dev message a =
        PyResult.ok (dev hd_path message)) := by
  constructor
  · intro account message
    rfl
  · intro cache dev message a hd_path h
    simp [TrezorSigner.sign_message, TrezorSigner.get_address_path, h]

/-- Witness for C9 amended: the fixture cache resolves the fixture sender
and the device signature is returned unchanged. -/
theorem sign_message_family_asymmetry_amended_witness :
    dictGet cacheFixture addrFrom = some pathFrom ∧
    TrezorSigner.sign_message cacheFixture (fun _ _ => [9, 9]) [1, 2]
      addrFrom = PyResult.ok [9, 9] := by
  have h : dictGet cacheFixture addrFrom = some pathFrom := by decide
  exact ⟨h, sign_message_family_asymmetry_amended.2 cacheFixture
    (fun _ _ => [9, 9]) [1, 2] addrFrom pathFrom h⟩
